import Mathlib

/-!
Verification of the calendar engine of `persian_date_picker.py`
(class `PersianDatePicker`): a Jalali (solar-Hijri) month-calendar
renderer for Telegram inline keyboards, with month navigation and
single-day selection.

The embedding translates the Python source shallowly:
* a Telegram `InlineKeyboardButton` becomes a structure with the two
  fields the engine sets (`text`, `callback_data`);
* Python `int` becomes `Int` (`Nat` where the value is a day/month/year
  count), `str` becomes `String`, with explicit models of the Python
  primitives used by the source: `str.split('_')`, `str.startswith`,
  `int(...)` parsing, f-string decimal rendering, and list indexing
  (which accepts negative indices);
* the external `persiantools` library (`JalaliDate.to_gregorian`,
  `JalaliDate.is_leap`, `date.weekday`) and the holiday JSON file are
  not part of the repository source; they are modelled from the spec
  (each such definition carries a `Modelled from the spec:` comment)
  and the holiday set is passed as an explicit parameter;
* the Telegram transport (`query.answer()`, message editing) is erased;
  `process_selection`'s observable outcome is an explicit result type
  (return value `None`, re-render of a new month, selected date string,
  or an uncaught Python exception).
-/

/-- The two fields of a Telegram `InlineKeyboardButton` that the engine
sets: the display text and the callback payload. -/
structure InlineKeyboardButton where
  text : String
  callback_data : String
deriving DecidableEq, Repr

/-! ## Models of the Python string primitives used by the source -/

/-- Fuel-driven digit extraction (structural recursion, so that it
reduces inside the kernel); `fuel > n` always suffices because the
argument strictly decreases. -/
def natDigitsAux : Nat → Nat → List Char
  | 0, _ => []
  | fuel + 1, n =>
    if n < 10 then [Nat.digitChar n]
    else natDigitsAux fuel (n / 10) ++ [Nat.digitChar (n % 10)]

/-- Decimal digit run of a natural number, most significant first, no
leading zeros: the digits an f-string `{n}` renders. -/
def natDigits (n : Nat) : List Char :=
  natDigitsAux (n + 1) n

/-- Decimal rendering of a Python `int` as a char list: digits, with a
leading `-` for negative values (what an f-string `{i}` produces). -/
def pyStrL (i : Int) : List Char :=
  if i < 0 then '-' :: natDigits (-i).toNat else natDigits i.toNat

/-- Decimal rendering of a Python `int` as a string. -/
def pyStr (i : Int) : String :=
  String.mk (pyStrL i)

/-- Value of a decimal digit run (accumulator fold, as positional
notation). -/
def digitsVal (l : List Char) : Nat :=
  l.foldl (fun a c => a * 10 + (c.toNat - 48)) 0

/-- Auxiliary digit-run check of `int(...)`: nonempty, all decimal
digits. -/
def parse_digits (l : List Char) : Option Nat :=
  if l ≠ [] ∧ l.all Char.isDigit then some (digitsVal l) else none

/-- Model of Python `int(s)` on a token field. Python's `int` also
strips surrounding whitespace and allows `_` digit separators; fields
obtained from `split('_')` contain no `_`, and the token alphabet has
no whitespace, so an optional sign followed by a digit run covers the
reachable behaviour. `none` models the raised `ValueError`. -/
def pyIntL : List Char → Option Int
  | [] => none
  | c :: rest =>
    if c = '-' then (parse_digits rest).map (fun n => -(n : Int))
    else if c = '+' then (parse_digits rest).map (fun n => (n : Int))
    else (parse_digits (c :: rest)).map (fun n => (n : Int))

/-- Model of Python `s.split(sep)` for a one-character separator: no
collapsing of adjacent separators, `""` splits to `[""]`. -/
def pySplit (sep : Char) : List Char → List (List Char)
  | [] => [[]]
  | c :: rest =>
    let r := pySplit sep rest
    if c = sep then [] :: r
    else
      match r with
      | [] => [[c]]
      | h :: t => (c :: h) :: t

/-- Model of Python `s.startswith(pat)` on char lists (first argument
the string, second the pattern). -/
def listStartsWith : List Char → List Char → Bool
  | _, [] => true
  | [], _ :: _ => false
  | a :: as, b :: bs => (a = b) && listStartsWith as bs

/-- Model of Python list indexing `l[i]`: negative indices count from
the end; `none` models the raised `IndexError`. -/
def pyIndex {α : Type} (l : List α) (i : Int) : Option α :=
  let j : Int := if i < 0 then i + l.length else i
  if 0 ≤ j ∧ j < (l.length : Int) then l.get? j.toNat else none

/-! ## Calendar math supplied by the external `persiantools` library

The source calls `JalaliDate(y, m, d).to_gregorian().weekday()` and
`JalaliDate.is_leap(y)`. That library is an external dependency, not
part of this repository, so these are modelled from the spec. -/

/-- Modelled from the spec: `JalaliDate.is_leap` of the external
`persiantools` library ("Jalali's own leap rule", §4.1); the documented
33-year-cycle arithmetic rule for Jalali leap years. -/
def is_leap (year : Nat) : Bool :=
  (25 * year + 11) % 33 < 8

/-- Month lengths of a Gregorian year. -/
def gregorian_month_lengths (leap : Bool) : List Nat :=
  if leap then [31, 29, 31, 30, 31, 30, 31, 31, 30, 31, 30, 31]
  else [31, 28, 31, 30, 31, 30, 31, 31, 30, 31, 30, 31]

/-- Gregorian leap-year rule. -/
def gregorian_leap (y : Nat) : Bool :=
  (y % 4 = 0 && y % 100 ≠ 0) || y % 400 = 0

/-- Walk a list of month lengths, converting a day-of-year (1-based)
into a (month, day) pair; models the month-extraction loop of the
documented Jalali→Gregorian algorithm. -/
def monthDayOfYear : List Nat → Nat → Nat → Nat × Nat
  | [], m, d => (m, d)
  | len :: rest, m, d =>
    if d > len then monthDayOfYear rest (m + 1) (d - len) else (m, d)

/-- Modelled from the spec: `JalaliDate.to_gregorian` of the external
`persiantools` library — "a documented Jalali↔Gregorian algorithm"
(§4.1). The standard published conversion: day count from the Jalali
date, then Gregorian year extraction by 400/100/4/1-year cycles.
All intermediate quantities are nonnegative for every year ≥ 0, so
`Nat` arithmetic agrees with Python's `int`. -/
def to_gregorian (jy jm jd : Nat) : Nat × Nat × Nat :=
  let y := jy + 1595
  let days :=
    365 * y + (y / 33) * 8 + ((y % 33) + 3) / 4 + jd
      + (if jm < 7 then (jm - 1) * 31 else (jm - 7) * 30 + 186) - 355668
  let gy := 400 * (days / 146097)
  let days := days % 146097
  let (gy, days) :=
    if days > 36524 then
      let days := days - 1
      let gy := gy + 100 * (days / 36524)
      let days := days % 36524
      (gy, if days ≥ 365 then days + 1 else days)
    else (gy, days)
  let gy := gy + 4 * (days / 1461)
  let days := days % 1461
  let (gy, days) :=
    if days > 365 then (gy + (days - 1) / 365, (days - 1) % 365)
    else (gy, days)
  let gd := days + 1
  let (gm, gd) := monthDayOfYear (gregorian_month_lengths (gregorian_leap gy)) 1 gd
  (gy, gm, gd)

/-- Proleptic-Gregorian ordinal of a date: day 1 = 0001-01-01 (as
Python's `date.toordinal`). -/
def gregorian_ordinal (y m d : Nat) : Nat :=
  365 * (y - 1) + (y - 1) / 4 - (y - 1) / 100 + (y - 1) / 400
    + ((gregorian_month_lengths (gregorian_leap y)).take (m - 1)).sum + d

/-- Modelled from the spec: Python's `date.weekday()` — ISO weekday
with 0 = Monday .. 6 = Sunday (§4.1, §4.2). 0001-01-01 proleptic
Gregorian is a Monday. -/
def gregorian_weekday (y m d : Nat) : Nat :=
  (gregorian_ordinal y m d + 6) % 7

/-- `JalaliDate(y, m, d).to_gregorian().weekday()` as one function. -/
def jalali_weekday (jy jm jd : Nat) : Nat :=
  let (gy, gmd) := to_gregorian jy jm jd
  gregorian_weekday gy gmd.1 gmd.2

/-! ## The engine's static tables (source lines 51 and 66–67) -/

/-- `self.weekdays` (line 51): Saturday..Friday one-letter labels,
index 0 = first display column. -/
def weekdays : List String :=
  ["ش", "ی", "د", "س", "چ", "پ", "ج"]

/-- `months` table of `_get_persian_month_name` (lines 66–67). -/
def months : List String :=
  ["فروردین", "اردیبهشت", "خرداد", "تیر", "مرداد", "شهریور",
   "مهر", "آبان", "آذر", "دی", "بهمن", "اسفند"]

/-- `_get_persian_month_name` (lines 64–68): `months[month - 1]` with
Python indexing semantics; `none` models the raised `IndexError`. -/
def get_persian_month_name (month : Int) : Option String :=
  pyIndex months (month - 1)

/-- Modelled from the spec: `weekdayLabel(columnIndex)` (§4.1) — the
source defines the `weekdays` table (line 51) but no lookup function,
so the spec's words are followed exactly: a "pure table lookup" that
"fails with `OutOfRange` if index outside [0,6]" (`none` models the
`OutOfRange` failure). -/
def weekday_label (columnIndex : Int) : Option String :=
  if 0 ≤ columnIndex ∧ columnIndex ≤ 6 then weekdays.get? columnIndex.toNat
  else none

/-! ## Holiday classifier (source lines 70–73) -/

/-- The `"{year}/{month}/{day}"` date key / canonical selection string
(unpadded decimal). -/
def date_string (year month day : Int) : String :=
  pyStr year ++ "/" ++ pyStr month ++ "/" ++ pyStr day

/-- `_is_holiday` (lines 70–73). The holiday set `self.holidays` is
loaded from a JSON file external to the source (empty when absent); it
is passed here as the list of its keys, membership in which models
Python's `date_str in self.holidays`. -/
def is_holiday (holidays : List String) (year month day : Nat) : Bool :=
  let date_str := date_string year month day
  holidays.contains date_str || (jalali_weekday year month day == 4)

/-! ## Grid builder: `create_calendar` (source lines 75–141) -/

/-- A blank padding cell: `InlineKeyboardButton(" ", callback_data="ignore")`
(lines 118 and 138). -/
def blank_button : InlineKeyboardButton :=
  ⟨" ", "ignore"⟩

/-- The navigation callback `f"{pattern}_{action}_{year}_{month}"` of
the header row (lines 96 and 98, `action` ∈ {"prev", "next"}). -/
def nav_token (callback_pattern action : String) (year month : Int) : String :=
  callback_pattern ++ "_" ++ action ++ "_" ++ pyStr year ++ "_" ++ pyStr month

/-- The day-selection callback `f"{pattern}_day_{year}_{month}_{day}"`
(line 128). -/
def day_token (callback_pattern : String) (year month day : Int) : String :=
  callback_pattern ++ "_day_" ++ pyStr year ++ "_" ++ pyStr month ++ "_" ++ pyStr day

/-- One day cell (lines 121–129): text is the day number, prefixed by
the holiday glyph when `_is_holiday` holds; callback is the day token. -/
def day_button (callback_pattern : String) (holidays : List String)
    (year month day : Nat) : InlineKeyboardButton :=
  let display_text :=
    if is_holiday holidays year month day then "🔴" ++ pyStr day else pyStr day
  ⟨display_text, day_token callback_pattern year month day⟩

/-- `start_weekday` (lines 105–106): display column of day 1. -/
def start_weekday (year month : Nat) : Nat :=
  (jalali_weekday year month 1 + 2) % 7

/-- `days_in_month` (lines 108–113). -/
def days_in_month (year month : Nat) : Nat :=
  if month ≤ 6 then 31
  else if month ≤ 11 then 30
  else if ¬ is_leap year then 29 else 30

/-- The day loop of `create_calendar` (lines 121–133): append each
button to the current row, flushing the row into the keyboard whenever
it reaches 7 cells. Returns the flushed rows and the leftover row. -/
def fill_rows {α : Type} : List α → List α → List (List α) → List (List α) × List α
  | [], row, acc => (acc, row)
  | b :: rest, row, acc =>
    let row' := row ++ [b]
    if row'.length = 7 then fill_rows rest [] (acc ++ [row'])
    else fill_rows rest row' acc

/-- `create_calendar` (lines 75–141) for an explicitly given (year,
month). The Python defaulting of an absent/zero year or month to
today's Jalali date (lines 86–89) depends on the clock and is outside
the embedding; claims quantify over valid explicit (year, month). The
header label uses the month-name lookup, whose `IndexError` case is
unreachable for a month in [1,12] (defaulted to `""` here). -/
def create_calendar (callback_pattern : String) (holidays : List String)
    (year month : Nat) : List (List InlineKeyboardButton) :=
  let month_year := ((get_persian_month_name month).getD "") ++ " " ++ pyStr year
  let header : List InlineKeyboardButton :=
    [⟨"←", nav_token callback_pattern "prev" year month⟩,
     ⟨month_year, "ignore"⟩,
     ⟨"→", nav_token callback_pattern "next" year month⟩]
  let weekday_row := weekdays.map (fun x => (⟨x, "ignore"⟩ : InlineKeyboardButton))
  let blanks := List.replicate (start_weekday year month) blank_button
  let day_buttons :=
    (List.range' 1 (days_in_month year month)).map
      (day_button callback_pattern holidays year month)
  let (rows, current_row) := fill_rows day_buttons blanks []
  let keyboard := header :: weekday_row :: rows
  if current_row.isEmpty then keyboard
  else keyboard ++ [current_row ++ List.replicate (7 - current_row.length) blank_button]

/-! ## Interaction decoder: `process_selection` (source lines 159–200) -/

/-- Observable outcome of `process_selection`: `none_result` models a
plain `return None`; `rerender y m` models
`edit_message_reply_markup(create_calendar(y, m))` followed by
`return None`; `selected s` models returning the date string; `error`
models an uncaught Python exception (`IndexError` from `split('_')[1]`,
`ValueError` from `int(...)` or tuple unpacking). -/
inductive SelectionResult where
  | none_result : SelectionResult
  | rerender : Int → Int → SelectionResult
  | selected : String → SelectionResult
  | error : String → SelectionResult
deriving DecidableEq, Repr

/-- `process_selection` (lines 159–200). Python's lazy
`year, month = map(int, ...)` surfaces a `ValueError` both for an
unparsable field and for a wrong field count; both are `error` here. -/
def process_selection (callback_pattern : String) (callback_data : String) :
    SelectionResult :=
  if ¬ listStartsWith callback_data.data callback_pattern.data then .none_result
  else
    let parts := pySplit '_' callback_data.data
    match parts.get? 1 with
    | none => .error "IndexError"
    | some action =>
      if action = "ignore".data ∨ action = [] then .none_result
      else if action = "prev".data ∨ action = "next".data then
        match (parts.drop 2).mapM pyIntL with
        | none => .error "ValueError"
        | some args =>
          match args with
          | [year, month] =>
            if action = "prev".data then
              let month := month - 1
              if month < 1 then .rerender (year - 1) 12 else .rerender year month
            else
              let month := month + 1
              if month > 12 then .rerender (year + 1) 1 else .rerender year month
          | _ => .error "ValueError"
      else if action = "day".data then
        match (parts.drop 2).mapM pyIntL with
        | none => .error "ValueError"
        | some args =>
          match args with
          | [year, month, day] => .selected (date_string year month day)
          | _ => .error "ValueError"
      else .none_result

/-! ## Lemmas on the string primitives -/

theorem digitChar_isDigit (k : Nat) (h : k < 10) : (Nat.digitChar k).isDigit = true := by
  interval_cases k <;> decide

theorem digitChar_val (k : Nat) (h : k < 10) : (Nat.digitChar k).toNat - 48 = k := by
  interval_cases k <;> decide

theorem natDigitsAux_fuel (fuel n : Nat) (h : n < fuel) :
    natDigitsAux fuel n ≠ [] ∧
    (∀ c ∈ natDigitsAux fuel n, c.isDigit = true) ∧
    digitsVal (natDigitsAux fuel n) = n := by
  induction fuel generalizing n with
  | zero => omega
  | succ fuel ih =>
    by_cases h10 : n < 10
    · refine ⟨by simp [natDigitsAux, h10], ?_, ?_⟩
      · intro c hc
        simp only [natDigitsAux, if_pos h10, List.mem_singleton] at hc
        exact hc ▸ digitChar_isDigit n h10
      · simp [natDigitsAux, h10, digitsVal, digitChar_val n h10]
    · have hlt : n / 10 < fuel :=
        Nat.lt_of_lt_of_le (Nat.div_lt_self (by omega) (by omega)) (by omega)
      obtain ⟨ih1, ih2, ih3⟩ := ih (n / 10) hlt
      refine ⟨by simp [natDigitsAux, h10], ?_, ?_⟩
      · intro c hc
        simp only [natDigitsAux, if_neg h10, List.mem_append,
          List.mem_singleton] at hc
        rcases hc with hc | hc
        · exact ih2 c hc
        · exact hc ▸ digitChar_isDigit _ (Nat.mod_lt _ (by omega))
      · simp only [natDigitsAux, if_neg h10, digitsVal, List.foldl_append]
        have : (Nat.digitChar (n % 10)).toNat - 48 = n % 10 :=
          digitChar_val _ (Nat.mod_lt _ (by omega))
        simp only [List.foldl]
        rw [show List.foldl (fun a c => a * 10 + (c.toNat - 48)) 0
            (natDigitsAux fuel (n / 10)) = digitsVal (natDigitsAux fuel (n / 10))
          from rfl, ih3, this]
        omega

theorem natDigits_ne_nil (n : Nat) : natDigits n ≠ [] :=
  (natDigitsAux_fuel (n + 1) n (by omega)).1

theorem natDigits_all_digit (n : Nat) : ∀ c ∈ natDigits n, c.isDigit = true :=
  (natDigitsAux_fuel (n + 1) n (by omega)).2.1

theorem digitsVal_natDigits (n : Nat) : digitsVal (natDigits n) = n :=
  (natDigitsAux_fuel (n + 1) n (by omega)).2.2

theorem parse_digits_natDigits (n : Nat) : parse_digits (natDigits n) = some n := by
  unfold parse_digits
  rw [if_pos ⟨natDigits_ne_nil n, List.all_eq_true.mpr (natDigits_all_digit n)⟩,
    digitsVal_natDigits]

theorem pyIntL_pyStrL (i : Int) : pyIntL (pyStrL i) = some i := by
  unfold pyStrL
  split
  · next h =>
    simp only [pyIntL, if_pos rfl, parse_digits_natDigits]
    simp only [Option.map_some, Option.bind_some, Option.bind_eq_bind,
      Option.some_bind, Option.pure_def]
    simp
    omega
  · next h =>
    obtain ⟨c, rest, hc⟩ : ∃ c rest, natDigits i.toNat = c :: rest := by
      cases hnd : natDigits i.toNat with
      | nil => exact absurd hnd (natDigits_ne_nil _)
      | cons c rest => exact ⟨c, rest, rfl⟩
    have hd : c.isDigit = true :=
      natDigits_all_digit _ c (hc ▸ List.mem_cons_self c rest)
    have h1 : ¬(c = '-') := fun e => by rw [e] at hd; exact absurd hd (by decide)
    have h2 : ¬(c = '+') := fun e => by rw [e] at hd; exact absurd hd (by decide)
    rw [hc]
    simp only [pyIntL, if_neg h1, if_neg h2, ← hc, parse_digits_natDigits]
    simp
    omega

theorem underscore_notMem_natDigits (n : Nat) : '_' ∉ natDigits n := by
  intro h
  have := natDigits_all_digit n _ h
  exact absurd this (by decide)

theorem underscore_notMem_pyStrL (i : Int) : '_' ∉ pyStrL i := by
  unfold pyStrL
  split
  · intro h
    rcases List.mem_cons.mp h with h | h
    · exact absurd h (by decide)
    · exact underscore_notMem_natDigits _ h
  · exact underscore_notMem_natDigits _

theorem pySplit_no_sep (sep : Char) (l : List Char) (h : sep ∉ l) :
    pySplit sep l = [l] := by
  induction l with
  | nil => rfl
  | cons c rest ih =>
    have hc : ¬(c = sep) := fun e => h (e ▸ List.mem_cons_self c rest)
    have hr : sep ∉ rest := fun e => h (List.mem_cons_of_mem _ e)
    simp [pySplit, if_neg hc, ih hr]

theorem pySplit_append_sep (sep : Char) (a b : List Char) (h : sep ∉ a) :
    pySplit sep (a ++ sep :: b) = a :: pySplit sep b := by
  induction a with
  | nil => simp [pySplit]
  | cons c rest ih =>
    have hc : ¬(c = sep) := fun e => h (e ▸ List.mem_cons_self c rest)
    have hr : sep ∉ rest := fun e => h (List.mem_cons_of_mem _ e)
    simp [pySplit, if_neg hc, ih hr]

/-- The `_`-separated tail of a token: `_f₁_f₂…_fₖ` for fields `fᵢ`. -/
def join_fields : List (List Char) → List Char
  | [] => []
  | f :: rest => '_' :: (f ++ join_fields rest)

theorem pySplit_append_join_fields (a : List Char) (fields : List (List Char))
    (ha : '_' ∉ a) (hf : ∀ f ∈ fields, '_' ∉ f) :
    pySplit '_' (a ++ join_fields fields) = a :: fields := by
  induction fields generalizing a with
  | nil => simp [join_fields, pySplit_no_sep '_' a ha]
  | cons f rest ih =>
    show pySplit '_' (a ++ '_' :: (f ++ join_fields rest)) = a :: f :: rest
    rw [pySplit_append_sep _ _ _ ha,
      ih f (hf f (List.mem_cons_self f rest)) (fun g hg => hf g (List.mem_cons_of_mem f hg))]

theorem listStartsWith_append (a b : List Char) : listStartsWith (a ++ b) a = true := by
  induction a with
  | nil => simp [listStartsWith]
  | cons c rest ih => simp [listStartsWith, ih]

theorem string_data_append (a b : String) : (a ++ b).data = a.data ++ b.data := rfl

theorem pyStr_data (i : Int) : (pyStr i).data = pyStrL i := rfl

theorem day_token_data (cp : String) (y m d : Int) :
    (day_token cp y m d).data =
      cp.data ++ join_fields ["day".data, pyStrL y, pyStrL m, pyStrL d] := by
  have h1 : "_day_".data = ['_', 'd', 'a', 'y', '_'] := rfl
  have h2 : "_".data = ['_'] := rfl
  have h3 : "day".data = ['d', 'a', 'y'] := rfl
  simp [day_token, string_data_append, pyStr_data, join_fields, h1, h2, h3]

theorem nav_token_data (cp act : String) (y m : Int) :
    (nav_token cp act y m).data =
      cp.data ++ join_fields [act.data, pyStrL y, pyStrL m] := by
  have h2 : "_".data = ['_'] := rfl
  simp [nav_token, string_data_append, pyStr_data, join_fields, h2]

theorem pySplit_day_token (cp : String) (y m d : Int) (h : '_' ∉ cp.data) :
    pySplit '_' (day_token cp y m d).data =
      [cp.data, "day".data, pyStrL y, pyStrL m, pyStrL d] := by
  rw [day_token_data]
  refine pySplit_append_join_fields _ _ h ?_
  intro f hf
  simp only [List.mem_cons, List.not_mem_nil, or_false] at hf
  rcases hf with hf | hf | hf | hf
  · exact hf ▸ (by decide)
  · exact hf ▸ underscore_notMem_pyStrL y
  · exact hf ▸ underscore_notMem_pyStrL m
  · exact hf ▸ underscore_notMem_pyStrL d

theorem pySplit_nav_token (cp act : String) (y m : Int) (h : '_' ∉ cp.data)
    (hact : '_' ∉ act.data) :
    pySplit '_' (nav_token cp act y m).data =
      [cp.data, act.data, pyStrL y, pyStrL m] := by
  rw [nav_token_data]
  refine pySplit_append_join_fields _ _ h ?_
  intro f hf
  simp only [List.mem_cons, List.not_mem_nil, or_false] at hf
  rcases hf with hf | hf | hf
  · exact hf ▸ hact
  · exact hf ▸ underscore_notMem_pyStrL y
  · exact hf ▸ underscore_notMem_pyStrL m

theorem process_selection_day_token (cp : String) (y m d : Int) (h : '_' ∉ cp.data) :
    process_selection cp (day_token cp y m d) =
      SelectionResult.selected (date_string y m d) := by
  have hstart : listStartsWith (day_token cp y m d).data cp.data = true := by
    rw [day_token_data]; exact listStartsWith_append _ _
  simp only [process_selection, hstart, pySplit_day_token cp y m d h]
  simp [List.mapM.loop, pyIntL_pyStrL]

theorem process_selection_prev_token (cp : String) (y m : Int) (h : '_' ∉ cp.data) :
    process_selection cp (nav_token cp "prev" y m) =
      (if m - 1 < 1 then SelectionResult.rerender (y - 1) 12
       else SelectionResult.rerender y (m - 1)) := by
  have hstart : listStartsWith (nav_token cp "prev" y m).data cp.data = true := by
    rw [nav_token_data]; exact listStartsWith_append _ _
  simp only [process_selection, hstart,
    pySplit_nav_token cp "prev" y m h (by decide)]
  simp [List.mapM.loop, pyIntL_pyStrL]

theorem process_selection_next_token (cp : String) (y m : Int) (h : '_' ∉ cp.data) :
    process_selection cp (nav_token cp "next" y m) =
      (if m + 1 > 12 then SelectionResult.rerender (y + 1) 1
       else SelectionResult.rerender y (m + 1)) := by
  have hstart : listStartsWith (nav_token cp "next" y m).data cp.data = true := by
    rw [nav_token_data]; exact listStartsWith_append _ _
  simp only [process_selection, hstart,
    pySplit_nav_token cp "next" y m h (by decide)]
  simp [List.mapM.loop, pyIntL_pyStrL]

/-! ## Lemmas on the row-filling loop -/

theorem fill_rows_acc {α : Type} (l : List α) : ∀ (row : List α) (acc : List (List α)),
    fill_rows l row acc = (acc ++ (fill_rows l row []).1, (fill_rows l row []).2) := by
  induction l with
  | nil => intro row acc; simp [fill_rows]
  | cons b rest ih =>
    intro row acc
    simp only [fill_rows]
    split
    · rw [ih [] (acc ++ [row ++ [b]]), ih [] ([] ++ [row ++ [b]])]
      simp
    · rw [ih (row ++ [b]) acc, ih (row ++ [b]) []]

theorem fill_rows_spec {α : Type} (l : List α) : ∀ (row : List α), row.length < 7 →
    (∀ x ∈ (fill_rows l row []).1, x.length = 7) ∧
    (fill_rows l row []).2.length < 7 ∧
    (fill_rows l row []).1.flatten ++ (fill_rows l row []).2 = row ++ l := by
  induction l with
  | nil =>
    intro row h
    exact ⟨by simp [fill_rows], by simpa [fill_rows] using h, by simp [fill_rows]⟩
  | cons b rest ih =>
    intro row h
    by_cases h7 : (row ++ [b]).length = 7
    · have hrw : fill_rows (b :: rest) row ([] : List (List α)) =
          ((row ++ [b]) :: (fill_rows rest [] []).1, (fill_rows rest [] []).2) := by
        simp only [fill_rows, if_pos h7]
        rw [fill_rows_acc rest [] ([] ++ [row ++ [b]])]
        simp
      obtain ⟨ha, hb, hc⟩ := ih [] (by norm_num)
      simp only [List.nil_append] at hc
      rw [hrw]
      refine ⟨?_, hb, ?_⟩
      · intro x hx
        rcases List.mem_cons.mp hx with hx | hx
        · exact hx ▸ h7
        · exact ha x hx
      · simp [List.flatten_cons, List.append_assoc, hc]
    · have h8 : (row ++ [b]).length < 7 := by
        simp only [List.length_append, List.length_singleton] at h7 ⊢
        omega
      have hrw : fill_rows (b :: rest) row ([] : List (List α)) =
          fill_rows rest (row ++ [b]) [] := by
        simp only [fill_rows, if_neg h7]
      obtain ⟨ha, hb, hc⟩ := ih (row ++ [b]) h8
      rw [hrw]
      exact ⟨ha, hb, by rw [hc]; simp⟩

theorem flatten_length_of_rows7 {α : Type} (L : List (List α))
    (h : ∀ x ∈ L, x.length = 7) : L.flatten.length = 7 * L.length := by
  induction L with
  | nil => simp
  | cons x L ih =>
    have hx := h x (List.mem_cons_self x L)
    have hL := ih (fun y hy => h y (List.mem_cons_of_mem _ hy))
    simp only [List.flatten_cons, List.length_append, List.length_cons, hx, hL]
    ring

theorem day_token_ne_ignore (cp : String) (y m d : Int) :
    day_token cp y m d ≠ "ignore" := by
  intro e
  have hdata : (day_token cp y m d).data = "ignore".data := congrArg String.data e
  rw [day_token_data] at hdata
  have h1 : '_' ∈ cp.data ++ join_fields ["day".data, pyStrL y, pyStrL m, pyStrL d] := by
    refine List.mem_append.mpr (Or.inr ?_)
    simp [join_fields]
  rw [hdata] at h1
  exact absurd h1 (by decide)

theorem create_calendar_structure (cp : String) (holidays : List String)
    (year month : Nat) :
    ∃ rows last,
      fill_rows
        ((List.range' 1 (days_in_month year month)).map (day_button cp holidays year month))
        (List.replicate (start_weekday year month) blank_button) [] = (rows, last) ∧
      create_calendar cp holidays year month =
        [⟨"←", nav_token cp "prev" year month⟩,
         ⟨((get_persian_month_name month).getD "") ++ " " ++ pyStr year, "ignore"⟩,
         ⟨"→", nav_token cp "next" year month⟩] ::
        (weekdays.map fun x => (⟨x, "ignore"⟩ : InlineKeyboardButton)) ::
        (rows ++
          if last.isEmpty then []
          else [last ++ List.replicate (7 - last.length) blank_button]) := by
  refine ⟨_, _, rfl, ?_⟩
  simp only [create_calendar]
  by_cases h : (fill_rows
      ((List.range' 1 (days_in_month year month)).map (day_button cp holidays year month))
      (List.replicate (start_weekday year month) blank_button) []).2.isEmpty <;>
    simp [h]

/-! ## C1: shape of the calendar grid -/

/-- C1. For every valid (year, month), the grid built by
`create_calendar` has row count `2 + ceil((offset + total)/7)` (here
`(offset + total + 6) / 7` in natural division) where `offset` is the
first-weekday offset and `total` is days-in-month; every row after the
two header rows has exactly 7 cells; the number of non-blank day cells
equals `days_in_month year month`; and every cell of those rows is
either a day cell or a blank carrying the token `"ignore"`. -/
theorem create_calendar_grid_shape (cp : String) (holidays : List String)
    (year month : Nat) (_hy : 1 ≤ year) (_hm1 : 1 ≤ month) (_hm2 : month ≤ 12) :
    (create_calendar cp holidays year month).length =
      2 + (start_weekday year month + days_in_month year month + 6) / 7 ∧
    (∀ row ∈ (create_calendar cp holidays year month).drop 2, row.length = 7) ∧
    List.countP (fun c => c.callback_data != "ignore")
      ((create_calendar cp holidays year month).drop 2).flatten =
      days_in_month year month ∧
    (∀ row ∈ (create_calendar cp holidays year month).drop 2, ∀ c ∈ row,
      c = blank_button ∨
      ∃ d, 1 ≤ d ∧ d ≤ days_in_month year month ∧
        c = day_button cp holidays year month d) ∧
    blank_button.callback_data = "ignore" := by
  obtain ⟨rows, last, hF, hg⟩ := create_calendar_structure cp holidays year month
  have hoff : start_weekday year month < 7 := Nat.mod_lt _ (by norm_num)
  have hrowlen : (List.replicate (start_weekday year month) blank_button).length < 7 := by
    simpa using hoff
  obtain ⟨ha, hb, hc⟩ := fill_rows_spec
    ((List.range' 1 (days_in_month year month)).map (day_button cp holidays year month))
    (List.replicate (start_weekday year month) blank_button) hrowlen
  rw [hF] at ha hb hc
  simp only at ha hb hc
  -- abbreviations
  have hdrop : (create_calendar cp holidays year month).drop 2 =
      rows ++ (if last.isEmpty then []
        else [last ++ List.replicate (7 - last.length) blank_button]) := by
    rw [hg]; rfl
  have hlen : (create_calendar cp holidays year month).length =
      2 + rows.length + (if last.isEmpty then 0 else 1) := by
    rw [hg]
    by_cases h : last.isEmpty <;> simp [h] <;> omega
  have hflat : rows.flatten.length + last.length =
      start_weekday year month + days_in_month year month := by
    have := congrArg List.length hc
    simpa using this
  have hflat7 : rows.flatten.length = 7 * rows.length :=
    flatten_length_of_rows7 rows ha
  -- the cells of the day area, decomposed
  have hblank_mem : ∀ c ∈ List.replicate (start_weekday year month) blank_button,
      c = blank_button := fun c hcm => List.eq_of_mem_replicate hcm
  have hday_mem : ∀ c ∈ (List.range' 1 (days_in_month year month)).map
      (day_button cp holidays year month),
      ∃ d, 1 ≤ d ∧ d ≤ days_in_month year month ∧
        c = day_button cp holidays year month d := by
    intro c hcm
    obtain ⟨d, hd, rfl⟩ := List.mem_map.mp hcm
    obtain ⟨i, hi, rfl⟩ := List.mem_range'.mp hd
    exact ⟨1 + 1 * i, by omega, by omega, rfl⟩
  rw [hflat7] at hflat
  refine ⟨?_, ?_, ?_, ?_, rfl⟩
  · -- row count
    rw [hlen]
    by_cases h : last.isEmpty
    · have h0 : last.length = 0 := by
        rw [List.isEmpty_iff] at h; simp [h]
      simp [h]
      omega
    · have h0 : last.length ≠ 0 := by
        rw [List.isEmpty_iff] at h
        simpa [List.length_eq_zero] using h
      simp [h]
      omega
  · -- widths
    rw [hdrop]
    intro row hrow
    rcases List.mem_append.mp hrow with hrow | hrow
    · exact ha row hrow
    · by_cases h : last.isEmpty
      · simp [h] at hrow
      · simp only [h, if_neg, Bool.false_eq_true, not_false_iff,
          List.mem_singleton] at hrow
        subst hrow
        simp only [List.length_append, List.length_replicate]
        omega
  · -- day-cell count
    rw [hdrop]
    have hcount_blank : List.countP (fun c => c.callback_data != "ignore")
        (List.replicate (start_weekday year month) blank_button) = 0 := by
      refine List.countP_eq_zero.mpr ?_
      intro a hax
      rw [hblank_mem a hax]
      decide
    have hcount_day : List.countP (fun c => c.callback_data != "ignore")
        ((List.range' 1 (days_in_month year month)).map
          (day_button cp holidays year month)) = days_in_month year month := by
      have h1 : List.countP (fun c => c.callback_data != "ignore")
          ((List.range' 1 (days_in_month year month)).map
            (day_button cp holidays year month)) =
          ((List.range' 1 (days_in_month year month)).map
            (day_button cp holidays year month)).length := by
        refine List.countP_eq_length.mpr ?_
        intro a hax
        obtain ⟨d, _, _, rfl⟩ := hday_mem a hax
        simpa [day_button] using day_token_ne_ignore cp year month d
      rw [h1]
      simp
    by_cases h : last.isEmpty
    · have h0 : last = [] := List.isEmpty_iff.mp h
      rw [h0] at hc
      simp only [h, if_pos, List.append_nil, List.append_nil] at hc ⊢
      rw [hc, List.countP_append, hcount_blank, hcount_day]
      omega
    · simp only [h, if_neg, Bool.false_eq_true, not_false_iff]
      rw [List.flatten_append]
      simp only [List.flatten_cons, List.flatten_nil, List.append_nil]
      rw [← List.append_assoc, hc]
      simp only [List.countP_append, hcount_blank, hcount_day]
      have hcount_pad : List.countP (fun c => c.callback_data != "ignore")
          (List.replicate (7 - last.length) blank_button) = 0 := by
        refine List.countP_eq_zero.mpr ?_
        intro a hax
        rw [List.eq_of_mem_replicate hax]
        decide
      rw [hcount_pad]
      omega
  · -- every cell is a blank (token "ignore") or a day cell
    rw [hdrop]
    intro row hrow c hcm
    rcases List.mem_append.mp hrow with hrow | hrow
    · have hcflat : c ∈ rows.flatten := List.mem_flatten.mpr ⟨row, hrow, hcm⟩
      have hcarea : c ∈ rows.flatten ++ last := List.mem_append.mpr (Or.inl hcflat)
      rw [hc] at hcarea
      rcases List.mem_append.mp hcarea with hcm' | hcm'
      · exact Or.inl (hblank_mem c hcm')
      · exact Or.inr (hday_mem c hcm')
    · by_cases h : last.isEmpty
      · simp [h] at hrow
      · simp only [h, if_neg, Bool.false_eq_true, not_false_iff,
          List.mem_singleton] at hrow
        subst hrow
        rcases List.mem_append.mp hcm with hcm' | hcm'
        · have hcarea : c ∈ rows.flatten ++ last := List.mem_append.mpr (Or.inr hcm')
          rw [hc] at hcarea
          rcases List.mem_append.mp hcarea with hcm'' | hcm''
          · exact Or.inl (hblank_mem c hcm'')
          · exact Or.inr (hday_mem c hcm'')
        · exact Or.inl (List.eq_of_mem_replicate hcm')

/-- C1 witness: Farvardin 1402 with an empty holiday set. -/
theorem create_calendar_grid_shape_witness :
    (create_calendar "cal" [] 1402 1).length =
      2 + (start_weekday 1402 1 + days_in_month 1402 1 + 6) / 7 ∧
    (∀ row ∈ (create_calendar "cal" [] 1402 1).drop 2, row.length = 7) ∧
    List.countP (fun c => c.callback_data != "ignore")
      ((create_calendar "cal" [] 1402 1).drop 2).flatten =
      days_in_month 1402 1 ∧
    (∀ row ∈ (create_calendar "cal" [] 1402 1).drop 2, ∀ c ∈ row,
      c = blank_button ∨
      ∃ d, 1 ≤ d ∧ d ≤ days_in_month 1402 1 ∧
        c = day_button "cal" [] 1402 1 d) ∧
    blank_button.callback_data = "ignore" :=
  create_calendar_grid_shape "cal" [] 1402 1 (by decide) (by decide) (by decide)

/-! ## C2: days-in-month rule -/

/-- C2. For every year and every month in [1,12], `days_in_month` is 31
for months 1–6, 30 for months 7–11, and for month 12 it is 30 if the
year is a Jalali leap year and 29 otherwise. -/
theorem days_in_month_rule (year month : Nat) (h1 : 1 ≤ month) (h2 : month ≤ 12) :
    (month ≤ 6 → days_in_month year month = 31) ∧
    (7 ≤ month → month ≤ 11 → days_in_month year month = 30) ∧
    (month = 12 → days_in_month year month = if is_leap year then 30 else 29) := by
  unfold days_in_month
  refine ⟨fun h => by simp [h], fun h7 h11 => ?_, fun h12 => ?_⟩
  · rw [if_neg (by omega), if_pos h11]
  · subst h12
    rw [if_neg (by omega), if_neg (by omega)]
    by_cases hl : is_leap year <;> simp [hl]

/-- C2 witness: year 1403 (a leap year) and month 12. -/
theorem days_in_month_rule_witness :
    ((12 ≤ 6 → days_in_month 1403 12 = 31) ∧
    (7 ≤ 12 → 12 ≤ 11 → days_in_month 1403 12 = 30) ∧
    (12 = 12 → days_in_month 1403 12 = if is_leap 1403 then 30 else 29)) ∧
    days_in_month 1403 12 = 30 :=
  ⟨days_in_month_rule 1403 12 (by decide) (by decide), by decide⟩

/-! ## C3 and C10: decoding day tokens -/

/-- C3. Round-trip: for every valid (year, month, day) and every
callback pattern free of the `_` delimiter, the day token that
`create_calendar` attaches to that day (the `callback_data` of its
`day_button`), passed to `process_selection` configured with the same
pattern, returns exactly the selected string
`"{year}/{month}/{day}"` in decimal with no leading zeros. -/
theorem day_token_round_trip (cp : String) (holidays : List String)
    (year month day : Nat) (hcp : '_' ∉ cp.data)
    (_hm1 : 1 ≤ month) (_hm2 : month ≤ 12) (_hd1 : 1 ≤ day)
    (_hd2 : day ≤ days_in_month year month) :
    (day_button cp holidays year month day).callback_data =
      day_token cp year month day ∧
    process_selection cp (day_token cp year month day) =
      SelectionResult.selected
        (pyStr (year : Int) ++ "/" ++ pyStr (month : Int) ++ "/" ++ pyStr (day : Int)) :=
  ⟨rfl, process_selection_day_token cp year month day hcp⟩

/-- C3 witness: day 5 of Farvardin 1402 with pattern `"cal"`. -/
theorem day_token_round_trip_witness :
    (day_button "cal" [] 1402 1 5).callback_data = day_token "cal" 1402 1 5 ∧
    process_selection "cal" (day_token "cal" 1402 1 5) =
      SelectionResult.selected
        (pyStr (1402 : Int) ++ "/" ++ pyStr (1 : Int) ++ "/" ++ pyStr (5 : Int)) :=
  day_token_round_trip "cal" [] 1402 1 5 (by decide) (by decide) (by decide)
    (by decide) (by decide)

/-- C10 (implicit). For every token of day shape with a matching
pattern and parsable integers — with no restriction to valid Jalali
dates — `process_selection` returns the formatted date string: the
decoder performs no range validation on the decoded date. -/
theorem day_token_no_range_validation (cp : String) (y m d : Int)
    (hcp : '_' ∉ cp.data) :
    process_selection cp (day_token cp y m d) =
      SelectionResult.selected (date_string y m d) :=
  process_selection_day_token cp y m d hcp

/-- C10 witness: month 13 and day 99 do not exist in any Jalali year,
yet the token decodes to a selection. -/
theorem day_token_no_range_validation_witness :
    process_selection "cal" (day_token "cal" 1402 13 99) =
      SelectionResult.selected (date_string 1402 13 99) :=
  day_token_no_range_validation "cal" 1402 13 99 (by decide)

/-! ## C6: navigation wrap -/

/-- C6. Decoding a `next` token for (Y, 12) yields a re-render of
(Y+1, 1); decoding a `prev` token for (Y, 1) yields a re-render of
(Y−1, 12); for every other month, `prev` yields (Y, m−1) and `next`
yields (Y, m+1); and a re-render is never a selection. -/
theorem navigation_wrap (cp : String) (y m : Int) (hcp : '_' ∉ cp.data)
    (hm1 : 1 ≤ m) (hm2 : m ≤ 12) :
    process_selection cp (nav_token cp "next" y 12) =
      SelectionResult.rerender (y + 1) 1 ∧
    process_selection cp (nav_token cp "prev" y 1) =
      SelectionResult.rerender (y - 1) 12 ∧
    (2 ≤ m → process_selection cp (nav_token cp "prev" y m) =
      SelectionResult.rerender y (m - 1)) ∧
    (m ≤ 11 → process_selection cp (nav_token cp "next" y m) =
      SelectionResult.rerender y (m + 1)) ∧
    (∀ y' m' s, SelectionResult.rerender y' m' ≠ SelectionResult.selected s) := by
  refine ⟨?_, ?_, fun h2 => ?_, fun h11 => ?_, fun y' m' s h => by cases h⟩
  · rw [process_selection_next_token cp y 12 hcp]
    norm_num
  · rw [process_selection_prev_token cp y 1 hcp]
    norm_num
  · rw [process_selection_prev_token cp y m hcp, if_neg (by omega)]
  · rw [process_selection_next_token cp y m hcp, if_neg (by omega)]

/-- C6 witness: year 1402, month 5, pattern `"cal"`. -/
theorem navigation_wrap_witness :
    process_selection "cal" (nav_token "cal" "next" 1402 12) =
      SelectionResult.rerender (1402 + 1) 1 ∧
    process_selection "cal" (nav_token "cal" "prev" 1402 1) =
      SelectionResult.rerender (1402 - 1) 12 ∧
    (2 ≤ (5 : Int) → process_selection "cal" (nav_token "cal" "prev" 1402 5) =
      SelectionResult.rerender 1402 (5 - 1)) ∧
    ((5 : Int) ≤ 11 → process_selection "cal" (nav_token "cal" "next" 1402 5) =
      SelectionResult.rerender 1402 (5 + 1)) ∧
    (∀ y' m' s, SelectionResult.rerender y' m' ≠ SelectionResult.selected s) :=
  navigation_wrap "cal" 1402 5 (by decide) (by decide) (by decide)

/-! ## C4: holiday classification -/

/-- C4. For every valid Jalali date, `_is_holiday` returns true if and
only if the unpadded `"{year}/{month}/{day}"` string is a key of the
holiday set OR the date's Gregorian weekday is Friday (ISO weekday 4
under 0 = Monday indexing); the two criteria are combined by a plain
disjunction, so neither invalidates the other. -/
theorem is_holiday_rule (holidays : List String) (year month day : Nat)
    (_hm1 : 1 ≤ month) (_hm2 : month ≤ 12) (_hd1 : 1 ≤ day)
    (_hd2 : day ≤ days_in_month year month) :
    is_holiday holidays year month day = true ↔
      (date_string year month day ∈ holidays ∨
        jalali_weekday year month day = 4) := by
  unfold is_holiday
  simp

/-- C4 witness: 1402/1/13 (Sizdah Bedar, a Tuesday) is classified a
holiday through the key criterion, and 1402/1/4 (a Friday) through the
weekday criterion with an empty holiday set. -/
theorem is_holiday_rule_witness :
    (is_holiday ["1402/1/13"] 1402 1 13 = true ↔
      (date_string 1402 1 13 ∈ ["1402/1/13"] ∨ jalali_weekday 1402 1 13 = 4)) ∧
    is_holiday ["1402/1/13"] 1402 1 13 = true ∧
    jalali_weekday 1402 1 13 ≠ 4 ∧
    is_holiday [] 1402 1 4 = true ∧
    jalali_weekday 1402 1 4 = 4 :=
  ⟨is_holiday_rule ["1402/1/13"] 1402 1 13 (by decide) (by decide) (by decide)
      (by decide),
    by decide, by decide, by decide, by decide⟩

/-! ## C7: prefix isolation (corrected) -/

/-- C7 counterexample. The claim "every token whose prefix does not
match the configured token prefix yields no-op" is false: the source
checks `startswith`, not the prefix field, so the token
`"calx_day_7_8_9"` — whose prefix field is `"calx"`, not `"cal"` —
is decoded as a selection by an engine configured with `"cal"`. -/
theorem pattern_isolation_counterexample :
    (pySplit '_' "calx_day_7_8_9".data).head? = some "calx".data ∧
    "calx".data ≠ "cal".data ∧
    process_selection "cal" "calx_day_7_8_9" ≠ SelectionResult.none_result ∧
    process_selection "cal" "calx_day_7_8_9" = SelectionResult.selected "7/8/9" :=
  ⟨by decide, by decide, by decide, by decide⟩

/-- C7 amended. For every interaction token that does not *start with*
the engine's configured pattern string, `process_selection` yields
no-op (returns `None` and changes nothing); in particular
`"other_day_1402_1_5"` against an engine configured with `"cal"`
yields no-op (see the witness). -/
theorem pattern_isolation_amended (cp tok : String)
    (h : listStartsWith tok.data cp.data = false) :
    process_selection cp tok = SelectionResult.none_result := by
  unfold process_selection
  rw [h]
  simp

/-- C7 witness: the claim's own example token against pattern `"cal"`. -/
theorem pattern_isolation_amended_witness :
    listStartsWith "other_day_1402_1_5".data "cal".data = false ∧
    process_selection "cal" "other_day_1402_1_5" = SelectionResult.none_result :=
  ⟨by decide, pattern_isolation_amended "cal" "other_day_1402_1_5" (by decide)⟩

/-! ## C8: malformed numeric fields raise -/

theorem mapM_loop_pyIntL_eq_none (l : List (List Char))
    (h : ∃ f ∈ l, pyIntL f = none) :
    ∀ acc, List.mapM.loop pyIntL l acc = none := by
  induction l with
  | nil => simp at h
  | cons a l ih =>
    intro acc
    rcases h with ⟨f, hf, hnone⟩
    rcases List.mem_cons.mp hf with rfl | hf
    · simp [List.mapM.loop, hnone]
    · cases hpa : pyIntL a with
      | none => simp [List.mapM.loop, hpa]
      | some v => simp [List.mapM.loop, hpa, ih ⟨f, hf, hnone⟩]

/-- C8. For every token whose pattern matches but whose numeric
argument fields are unparsable, `process_selection` surfaces an
uncaught `ValueError` from `int(...)` (modelled as `error`) to the
caller, rather than silently defaulting to a no-op or an unintended
date. -/
theorem malformed_numeric_raises (cp : String) (act : List Char)
    (args : List (List Char)) (hcp : '_' ∉ cp.data)
    (hact : act = "prev".data ∨ act = "next".data ∨ act = "day".data)
    (hargs : ∀ f ∈ args, '_' ∉ f)
    (hbad : ∃ f ∈ args, pyIntL f = none) :
    ∃ msg, process_selection cp (String.mk (cp.data ++ join_fields (act :: args))) =
      SelectionResult.error msg := by
  have hdata : (String.mk (cp.data ++ join_fields (act :: args))).data =
      cp.data ++ join_fields (act :: args) := rfl
  have hsplit : pySplit '_' (cp.data ++ join_fields (act :: args)) =
      cp.data :: act :: args := by
    refine pySplit_append_join_fields _ _ hcp ?_
    intro f hf
    rcases List.mem_cons.mp hf with rfl | hf
    · rcases hact with h | h | h <;> subst h <;> decide
    · exact hargs f hf
  have hstart : listStartsWith (cp.data ++ join_fields (act :: args)) cp.data = true :=
    listStartsWith_append _ _
  have hmapM := mapM_loop_pyIntL_eq_none args hbad []
  refine ⟨"ValueError", ?_⟩
  simp only [process_selection, hdata, hstart, hsplit]
  rcases hact with h | h | h <;> subst h <;> simp [hmapM]

/-- C8 witness: `"cal_day_x_1_2"` (the field `x` is not an integer). -/
theorem malformed_numeric_raises_witness :
    ∃ msg, process_selection "cal"
      (String.mk ("cal".data ++ join_fields ["day".data, ['x'], ['1'], ['2']])) =
      SelectionResult.error msg :=
  malformed_numeric_raises "cal" "day".data [['x'], ['1'], ['2']] (by decide)
    (Or.inr (Or.inr rfl)) (by decide) ⟨['x'], by decide, by decide⟩

/-! ## C9: table lookups (corrected) -/

/-- C9 counterexample. The claim "`monthName` fails with an OutOfRange
error for every month outside [1,12]" is false on the source: Python's
negative list indexing makes `months[month - 1]` (line 68) succeed for
month 0, returning the last table entry instead of raising. -/
theorem table_lookup_counterexample :
    get_persian_month_name 0 = some "اسفند" ∧
    get_persian_month_name 0 ≠ none :=
  ⟨by decide, by decide⟩

/-- C9 amended. `_get_persian_month_name` returns the table entry at
index month−1 for every month in [1,12]; it fails (IndexError) exactly
for month > 12 or month < −11; for month in [−11,0] Python's negative
indexing returns the entry at month+11 instead of failing.
`weekdayLabel` (which has no implementation in the source and is
modelled from the spec's words) returns the table entry at the column
index for every index in [0,6] and fails with OutOfRange for every
index outside [0,6], exactly as the original claim states. -/
theorem table_lookup_bounds (i : Int) :
    (1 ≤ i → i ≤ 12 →
      get_persian_month_name i = months.get? (i - 1).toNat ∧
      (get_persian_month_name i).isSome = true) ∧
    (12 < i ∨ i < -11 → get_persian_month_name i = none) ∧
    (-11 ≤ i → i ≤ 0 →
      get_persian_month_name i = months.get? (i + 11).toNat ∧
      (get_persian_month_name i).isSome = true) ∧
    (0 ≤ i → i ≤ 6 →
      weekday_label i = weekdays.get? i.toNat ∧
      (weekday_label i).isSome = true) ∧
    (6 < i ∨ i < 0 → weekday_label i = none) := by
  have hm12 : (months.length : Int) = 12 := by norm_num [months]
  have hm12' : months.length = 12 := by norm_num [months]
  have hw7' : weekdays.length = 7 := by norm_num [weekdays]
  refine ⟨fun h1 h2 => ?_, fun h => ?_, fun h1 h2 => ?_,
    fun h1 h2 => ?_, fun h => ?_⟩
  · simp only [get_persian_month_name, pyIndex, hm12, if_neg (by omega : ¬(i - 1 < 0)),
      if_pos (by omega : (0:Int) ≤ i - 1 ∧ i - 1 < 12)]
    refine ⟨by trivial, ?_⟩
    rw [List.get?_eq_get (by omega : (i - 1).toNat < months.length)]
    simp
  · rcases h with h | h
    · simp only [get_persian_month_name, pyIndex, hm12, if_neg (by omega : ¬(i - 1 < 0))]
      rw [if_neg (by omega)]
    · simp only [get_persian_month_name, pyIndex, hm12, if_pos (by omega : i - 1 < 0)]
      rw [if_neg (by omega)]
  · simp only [get_persian_month_name, pyIndex, hm12, if_pos (by omega : i - 1 < 0)]
    rw [if_pos (by omega : (0:Int) ≤ i - 1 + 12 ∧ i - 1 + 12 < 12)]
    have h11 : (i - 1 + 12).toNat = (i + 11).toNat := by omega
    rw [h11]
    refine ⟨rfl, ?_⟩
    rw [List.get?_eq_get (by omega : (i + 11).toNat < months.length)]
    simp
  · rw [show weekday_label i = weekdays.get? i.toNat from
      if_pos (by omega : (0:Int) ≤ i ∧ i ≤ 6)]
    refine ⟨rfl, ?_⟩
    rw [List.get?_eq_get (by omega : i.toNat < weekdays.length)]
    simp
  · exact if_neg (by omega : ¬((0:Int) ≤ i ∧ i ≤ 6))

/-- C9 witness: month 0 resolves through the negative-index branch;
column index 3 resolves to its weekday label. -/
theorem table_lookup_bounds_witness :
    (get_persian_month_name 0 = months.get? ((0 : Int) + 11).toNat ∧
      (get_persian_month_name 0).isSome = true) ∧
    (weekday_label 3 = weekdays.get? (3 : Int).toNat ∧
      (weekday_label 3).isSome = true) ∧
    weekday_label 7 = none :=
  ⟨(table_lookup_bounds 0).2.2.1 (by decide) (by decide),
    (table_lookup_bounds 3).2.2.2.1 (by decide) (by decide),
    (table_lookup_bounds 7).2.2.2.2 (Or.inl (by decide))⟩

/-! ## C5: the first-weekday offset -/

theorem days_in_month_ge (year month : Nat) : 29 ≤ days_in_month year month := by
  unfold days_in_month
  split_ifs <;> omega

/-- C5. For every valid (year, month), the display-column offset of
day 1 equals `(gregorianWeekday(year, month, 1) + 2) mod 7` — the ISO
weekday (0 = Monday .. 6 = Sunday) of the Gregorian conversion of
Jalali (year, month, 1) — the offset always lies in [0,6], and the
cell at that column of the first day row of the rendered grid is
day 1's button. -/
theorem start_weekday_rule (cp : String) (holidays : List String)
    (year month : Nat) (_hy : 1 ≤ year) (_hm1 : 1 ≤ month) (_hm2 : month ≤ 12) :
    start_weekday year month = (jalali_weekday year month 1 + 2) % 7 ∧
    start_weekday year month < 7 ∧
    ((create_calendar cp holidays year month).get? 2).bind
      (fun r => r.get? (start_weekday year month)) =
      some (day_button cp holidays year month 1) := by
  have hoff : start_weekday year month < 7 := Nat.mod_lt _ (by norm_num)
  refine ⟨rfl, hoff, ?_⟩
  obtain ⟨rows, last, hF, hg⟩ := create_calendar_structure cp holidays year month
  obtain ⟨ha, hb, hc⟩ := fill_rows_spec
    ((List.range' 1 (days_in_month year month)).map (day_button cp holidays year month))
    (List.replicate (start_weekday year month) blank_button) (by simpa using hoff)
  rw [hF] at ha hb hc
  simp only at ha hb hc
  have htot : 29 ≤ days_in_month year month := days_in_month_ge year month
  obtain ⟨r0, rest, hrows⟩ : ∃ r0 rest, rows = r0 :: rest := by
    cases hr : rows with
    | nil =>
      exfalso
      rw [hr] at hc
      simp only [List.flatten_nil, List.nil_append] at hc
      have := congrArg List.length hc
      simp at this
      omega
    | cons r0 rest => exact ⟨r0, rest, rfl⟩
  subst hrows
  have hr0len : r0.length = 7 := ha r0 (List.mem_cons_self r0 rest)
  have hget2 : (create_calendar cp holidays year month).get? 2 = some r0 := by
    rw [hg]
    simp
  rw [hget2, Option.some_bind]
  have hflat : r0 ++ (rest.flatten ++ last) =
      List.replicate (start_weekday year month) blank_button ++
        (List.range' 1 (days_in_month year month)).map
          (day_button cp holidays year month) := by
    simpa [List.append_assoc] using hc
  have hsides := congrArg (fun l => List.get? l (start_weekday year month)) hflat
  simp only at hsides
  rw [List.get?_append (by omega : start_weekday year month < r0.length)] at hsides
  rw [List.get?_append_right (by simp)] at hsides
  simp only [List.length_replicate, Nat.sub_self] at hsides
  obtain ⟨k, hk⟩ : ∃ k, days_in_month year month = k + 1 :=
    ⟨days_in_month year month - 1, by omega⟩
  rw [hk, List.range'_succ] at hsides
  simpa using hsides

/-- C5 witness: Farvardin 1402 begins on column 3 (Tuesday). -/
theorem start_weekday_rule_witness :
    (start_weekday 1402 1 = (jalali_weekday 1402 1 1 + 2) % 7 ∧
      start_weekday 1402 1 < 7 ∧
      ((create_calendar "cal" [] 1402 1).get? 2).bind
        (fun r => r.get? (start_weekday 1402 1)) =
        some (day_button "cal" [] 1402 1 1)) ∧
    start_weekday 1402 1 = 3 :=
  ⟨start_weekday_rule "cal" [] 1402 1 (by decide) (by decide) (by decide), by decide⟩
